import Mathlib

/-!
Verification development for the clepsy desktop source agent.

The definitions below are shallow embeddings of the Python source:
`entities.py` (data model), `get_window_info.py` (relevance filter),
`data_generator.py` (capture scheduler loop), `sender.py` (dispatcher
serialization), `screenshotter.py` (grim clamping) and `main.py`
(queue creation).  Monotonic timestamps and idle durations are modelled
as rationals, machine floats' arithmetic on the small integer pixel
counts involved being exact at every comparison the code performs.
A Python function that can raise is modelled with `Option`/`Except`,
`none`/`.error` standing for the raised exception.
-/

namespace Clepsy

/-- Integer rectangle in global virtual-desktop coordinates (entities.py `Bbox`). -/
structure Bbox where
  left : Int
  top : Int
  width : Int
  height : Int
deriving DecidableEq, Repr

/-- Foreground-window metadata (entities.py `WindowInfo`). -/
structure WindowInfo where
  title : String
  app_name : String
  is_active : Bool
  bbox : Bbox
  monitor_names : List String
deriving DecidableEq, Repr

/-- get_window_info.py `intersection`: area of the overlap of two boxes. -/
def intersection (a b : Bbox) : Int :=
  max 0 (min (a.left + a.width) (b.left + b.width) - max a.left b.left) *
    max 0 (min (a.top + a.height) (b.top + b.height) - max a.top b.top)

/-- Area `width * height` of a box, as the Python code computes it inline. -/
def bboxArea (m : Bbox) : Int := m.width * m.height

/-- The `for mon_box in monitor_boxes` loop of `active_window_likely_relevant`:
returns `some true` at the first monitor covering at least 10 percent of its
own area, `none` when a zero-area monitor is reached first (Python raises
`ZeroDivisionError` there), and `some false` when the loop falls through. -/
def coverageLoop (wb : Bbox) : List Bbox → Option Bool
  | [] => some false
  | m :: rest =>
    if bboxArea m = 0 then none
    else if (1 : ℚ) / 10 ≤ (intersection m wb : ℚ) / (bboxArea m : ℚ) then some true
    else coverageLoop wb rest

/-- get_window_info.py `active_window_likely_relevant`.  `none` models an
uncaught exception (`ZeroDivisionError` in the per-monitor loop, or
`ValueError` from `max()` over an empty sequence in the fallback). -/
def active_window_likely_relevant (w : WindowInfo) (mons : List Bbox) : Option Bool :=
  let ww := w.bbox.width
  let wh := w.bbox.height
  if ww ≤ 0 ∨ wh ≤ 0 then some false
  else if ¬ ((1 : ℚ) / 4 ≤ (ww : ℚ) / (wh : ℚ) ∧ (ww : ℚ) / (wh : ℚ) ≤ 4) then some false
  else if min ww wh < 200 then some false
  else
    match coverageLoop w.bbox mons with
    | none => none
    | some true => some true
    | some false =>
      match mons with
      | [] => none
      | m :: ms =>
        if (1 : ℚ) / 10 ≤
            ((((m :: ms).map (fun m2 => intersection w.bbox m2)).sum : Int) : ℚ) /
              (((ms.map bboxArea).foldl max (bboxArea m) : Int) : ℚ) then
          some true
        else some false

/-- Geometry gate of the relevance filter (positive size, aspect ratio in
`[0.25, 4.0]`, both sides at least 200 px), shared by the claims about the
filter's coverage stage. -/
def geomPass (w : WindowInfo) : Prop :=
  0 < w.bbox.width ∧ 0 < w.bbox.height ∧
    (1 : ℚ) / 4 ≤ (w.bbox.width : ℚ) / (w.bbox.height : ℚ) ∧
    (w.bbox.width : ℚ) / (w.bbox.height : ℚ) ≤ 4 ∧
    200 ≤ min w.bbox.width w.bbox.height

instance (w : WindowInfo) : Decidable (geomPass w) := by
  unfold geomPass; infer_instance

/-- Spec-side relevance predicate, written from the claim's words: positive
size, aspect ratio within `[0.25, 4.0]`, minimum side at least 200 px, and
either some monitor has at least 10 percent of its own area covered, or the
total intersection with the monitors reaches 10 percent of the largest
monitor's area. -/
def spec_relevant (w : WindowInfo) (mons : List Bbox) : Prop :=
  geomPass w ∧
    ((∃ m ∈ mons, (1 : ℚ) / 10 * (bboxArea m : ℚ) ≤ (intersection w.bbox m : ℚ)) ∨
      (∃ m ∈ mons, (∀ m2 ∈ mons, bboxArea m2 ≤ bboxArea m) ∧
        (1 : ℚ) / 10 * (bboxArea m : ℚ) ≤ ((mons.map (fun m2 => intersection w.bbox m2)).sum : ℚ)))

instance (w : WindowInfo) (mons : List Bbox) : Decidable (spec_relevant w mons) := by
  unfold spec_relevant; infer_instance

/-- The coverage loop aborts (Python `ZeroDivisionError`) precisely when some
zero-area monitor box is reached before any box passes the 10 percent test. -/
def zeroBeforePass (wb : Bbox) : List Bbox → Prop
  | [] => False
  | m :: rest =>
    bboxArea m = 0 ∨
      (¬ (1 : ℚ) / 10 ≤ (intersection m wb : ℚ) / (bboxArea m : ℚ) ∧ zeroBeforePass wb rest)

def zeroBeforePassDec (wb : Bbox) : (mons : List Bbox) → Decidable (zeroBeforePass wb mons)
  | [] => .isFalse (by simp [zeroBeforePass])
  | _ :: rest => by
    unfold zeroBeforePass
    have := zeroBeforePassDec wb rest
    infer_instance

instance (wb : Bbox) (mons : List Bbox) : Decidable (zeroBeforePass wb mons) :=
  zeroBeforePassDec wb mons

/-- data_generator.py `window_to_hash`: the Python f-string
`f"{app_name}_{title}"`, i.e. app name and title joined by an underscore. -/
def window_to_hash (w : WindowInfo) : String :=
  w.app_name ++ "_" ++ w.title

/-- Timing parameters consumed by the scheduler loop (config.py `Config`). -/
structure SchedConfig where
  afk_timeout : ℚ
  global_cd : ℚ
  same_window_cd : ℚ
  constant_window_cd : ℚ
deriving DecidableEq, Repr

/-- Defaults from config.py: `afk_timeout` 5 min, `global_cd` 5 s,
`same_window_cd` 15 s, `constant_window_cd` 30 s. -/
def default_sched_config : SchedConfig :=
  { afk_timeout := 300, global_cd := 5, same_window_cd := 15, constant_window_cd := 30 }

/-- Mutable loop state of `data_generator_worker` (lines 97-102):
`prev_hash`, `last_shot_ts`, `last_change_ts`, the insertion-ordered
`window_hash_last_seen` map, and the `is_afk` latch. -/
structure SchedState where
  prev_hash : String
  last_shot_ts : ℚ
  last_change_ts : ℚ
  window_hash_last_seen : List (String × ℚ)
  is_afk : Bool
deriving DecidableEq, Repr

/-- Environment observed by one iteration of the inner loop: the monotonic
clock value, the idle seconds reported by the idle detector, the relevant
active window (if any), and whether `screenshot_and_publish` succeeds
(`false` models the swallowed exception of lines 223-224). -/
structure TickInput where
  now : ℚ
  idle : ℚ
  cur_window : Option WindowInfo
  capture_ok : Bool
deriving DecidableEq, Repr

/-- Events put on the publish queue (entities.py `DesktopCheck` / `AfkStart`),
restricted to the fields the claims speak about: a `DesktopCheck` carries its
window, the monotonic time of its tick and its `time_since_last_user_activity`
seconds; an `AfkStart` carries its tick's time and idle seconds. -/
inductive Event where
  | desktopCheck (window : WindowInfo) (time : ℚ) (tslua : ℚ)
  | afkStart (time : ℚ) (idle : ℚ)
deriving DecidableEq, Repr

/-- `dict.get` on the insertion-ordered `window_hash_last_seen` map. -/
def odGet : List (String × ℚ) → String → Option ℚ
  | [], _ => none
  | p :: r, k => if p.1 = k then some p.2 else odGet r k

/-- `d[k] = v` on an `OrderedDict`: an existing key keeps its position and
gets the new value, a new key is appended at the end. -/
def odSet : List (String × ℚ) → String → ℚ → List (String × ℚ)
  | [], k, v => [(k, v)]
  | p :: r, k, v => if p.1 = k then (k, v) :: r else p :: odSet r k v

/-- data_generator.py `screenshot_and_publish`: the `DesktopCheck` it enqueues
for window `w` on a tick at monotonic time `now`; its
`time_since_last_user_activity` is the literal `timedelta(seconds=0)`
of lines 53-55. -/
def screenshot_and_publish (w : WindowInfo) (now : ℚ) : Event :=
  Event.desktopCheck w now 0

/-- Lines 220-222: `popitem(last=False)` evicts the oldest entry when the
map holds more than 1000 entries. -/
def odPrune (d : List (String × ℚ)) : List (String × ℚ) :=
  if 1000 < d.length then d.tail else d

/-- State update after a successful screenshot (lines 217-222): record the
shot time, write `window_hash_last_seen[cur_hash] = now`, and pop the oldest
entry when the map exceeds 1000 entries. -/
def shotUpdate (st : SchedState) (cur_hash : String) (now : ℚ) : SchedState :=
  { st with last_shot_ts := now,
            window_hash_last_seen := odPrune (odSet st.window_hash_last_seen cur_hash now) }

/-- Lines 182-185: whenever the foreground hash changed, record
`last_change_ts = now` and `prev_hash = cur_hash`. -/
def hash_change_update (st : SchedState) (now : ℚ) (cur_hash : String) : SchedState :=
  if cur_hash ≠ st.prev_hash then { st with last_change_ts := now, prev_hash := cur_hash }
  else st

/-- The same-window cooldown test of lines 190-195, including Python's
truthiness test `if last_seen and ...` (a recorded `0.0` is treated as
absent). -/
def same_window_sleep (cfg : SchedConfig) (st : SchedState) (now : ℚ) (cur_hash : String) :
    Prop :=
  ∃ ls, odGet st.window_hash_last_seen cur_hash = some ls ∧ ls ≠ 0 ∧
    now - ls < cfg.same_window_cd

instance same_window_sleep_dec (cfg : SchedConfig) (st : SchedState) (now : ℚ)
    (cur_hash : String) : Decidable (same_window_sleep cfg st now cur_hash) :=
  match hd : odGet st.window_hash_last_seen cur_hash with
  | some ls =>
    decidable_of_iff (ls ≠ 0 ∧ now - ls < cfg.same_window_cd)
      (by
        constructor
        · intro hc; exact ⟨ls, hd, hc⟩
        · rintro ⟨ls2, hd2, hc⟩
          rw [hd] at hd2
          cases hd2
          exact hc)
  | none =>
    isFalse (by rintro ⟨ls, hls, -⟩; rw [hd] at hls; cases hls)

/-- Lines 190-222 on the state updated for a hash change: same-window
cooldown, rule A (focus-change burst) / rule B (constant-window heartbeat),
and the screenshot with its state update; a `capture_ok = false` input stands
for the exception screenshot_and_publish raised, caught at line 223 before
any state update. -/
def capture_branch (cfg : SchedConfig) (st : SchedState) (inp : TickInput) (w : WindowInfo) :
    SchedState × List Event :=
  if same_window_sleep cfg st inp.now (window_to_hash w) then (st, [])
  else if inp.now - st.last_change_ts < cfg.global_cd ∨
      ¬ inp.now - st.last_shot_ts < cfg.constant_window_cd then
    if inp.capture_ok then
      (shotUpdate st (window_to_hash w) inp.now, [screenshot_and_publish w inp.now])
    else (st, [])
  else (st, [])

/-- One iteration of the inner `while True` loop of `data_generator_worker`
(lines 137-228): AFK latch, global cooldown, active-window fetch, then the
capture branch. -/
def capture_loop_tick (cfg : SchedConfig) (st : SchedState) (inp : TickInput) :
    SchedState × List Event :=
  if cfg.afk_timeout < inp.idle then
    if st.is_afk then (st, [])
    else ({ st with is_afk := true }, [Event.afkStart inp.now inp.idle])
  else
    if inp.now - st.last_shot_ts < cfg.global_cd then ({ st with is_afk := false }, [])
    else
      match inp.cur_window with
      | none => ({ st with is_afk := false }, [])
      | some w =>
        capture_branch cfg
          (hash_change_update { st with is_afk := false } inp.now (window_to_hash w)) inp w

/-- Events emitted by running the inner loop over a list of tick inputs. -/
def capture_loop_run (cfg : SchedConfig) : SchedState → List TickInput → List Event
  | _, [] => []
  | st, inp :: rest =>
    (capture_loop_tick cfg st inp).2 ++
      capture_loop_run cfg (capture_loop_tick cfg st inp).1 rest

/-- States traversed by the inner loop (initial state included). -/
def capture_loop_states (cfg : SchedConfig) : SchedState → List TickInput → List SchedState
  | st, [] => [st]
  | st, inp :: rest => st :: capture_loop_states cfg (capture_loop_tick cfg st inp).1 rest

/-- Loop state freshly initialised after the bootstrap window `w0` was found
at monotonic time `t0` (lines 97-102). -/
def init_sched_state (w0 : WindowInfo) (t0 : ℚ) : SchedState :=
  { prev_hash := window_to_hash w0
    last_shot_ts := t0
    last_change_ts := t0
    window_hash_last_seen := [(window_to_hash w0, t0)]
    is_afk := false }

/-- All events of one paired session: the bootstrap `DesktopCheck` of line 124
(when it succeeds) followed by the events of the inner loop. -/
def session_events (cfg : SchedConfig) (w0 : WindowInfo) (t0 : ℚ)
    (bootstrap_ok : Bool) (inputs : List TickInput) : List Event :=
  (if bootstrap_ok then [screenshot_and_publish w0 t0] else []) ++
    capture_loop_run cfg (init_sched_state w0 t0) inputs

/-- Monotonic emission times of the `DesktopCheck` events of a trace. -/
def shotTimes : List Event → List ℚ
  | [] => []
  | Event.desktopCheck _ t _ :: r => t :: shotTimes r
  | Event.afkStart _ _ :: r => shotTimes r

/-- Monotonic emission times of the `DesktopCheck` events whose window has
fingerprint `h`. -/
def shotTimesFor (h : String) : List Event → List ℚ
  | [] => []
  | Event.desktopCheck w t _ :: r =>
    if window_to_hash w = h then t :: shotTimesFor h r else shotTimesFor h r
  | Event.afkStart _ _ :: r => shotTimesFor h r

/-- Rectangle passed to `grim -g "x,y WxH" -` (screenshotter.py). -/
structure GrimRect where
  x : Int
  y : Int
  w : Int
  h : Int
deriving DecidableEq, Repr

/-- screenshotter.py `GrimScreenshotter.capture_window`, up to the point the
geometry is fixed: reject a non-positive bbox, clamp to the layout union of
all outputs when `get_wl_layout_bounds` produced one, and reject an empty
clamped area.  `.error` models the raised `ValueError`. -/
def grim_clamp (b : Bbox) (layout : Option (Int × Int × Int × Int)) :
    Except String GrimRect :=
  if b.width ≤ 0 ∨ b.height ≤ 0 then .error "Invalid bbox size for grim"
  else
    let r :=
      match layout with
      | none => GrimRect.mk b.left b.top b.width b.height
      | some (lx, ly, lw, lh) =>
        let nl := max b.left lx
        let nt := max b.top ly
        let nr := min (b.left + b.width) (lx + lw)
        let nb := min (b.top + b.height) (ly + lh)
        GrimRect.mk nl nt (max 0 (nr - nl)) (max 0 (nb - nt))
    if r.w ≤ 0 ∨ r.h ≤ 0 then .error "Clamped bbox has non-positive size"
    else .ok r

/-- The geometry string `f"{left},{top} {width}x{height}"` handed to grim. -/
def grim_geometry (r : GrimRect) : String :=
  toString r.x ++ "," ++ toString r.y ++ " " ++ toString r.w ++ "x" ++ toString r.h

/-- main.py line 101 creates the publish queue as `asyncio.Queue()`, whose
default `maxsize` is 0. -/
def publish_queue_maxsize : Int := 0

/-- `asyncio.Queue.full()`: with `maxsize <= 0` the queue is never full,
otherwise it is full when at least `maxsize` items are queued. -/
def queue_full (maxsize : Int) (qsize : Nat) : Bool :=
  if maxsize ≤ 0 then false else decide (maxsize ≤ (qsize : Int))

/-- `await queue.put(x)`: blocks (`none`) on a full queue, otherwise appends. -/
def queue_put (maxsize : Int) (q : List Event) (x : Event) : Option (List Event) :=
  if queue_full maxsize q.length then none else some (q ++ [x])

/-- A producer performing a sequence of puts; `none` once any put blocks. -/
def queue_put_list (maxsize : Int) : List Event → List Event → Option (List Event)
  | q, [] => some q
  | q, x :: xs =>
    match queue_put maxsize q x with
    | none => none
    | some q2 => queue_put_list maxsize q2 xs

/-- JSON values, used to model the pydantic/`json` serialization in
sender.py.  Numeric rendering is abstracted into the `num` leaf. -/
inductive Jv where
  | str (s : String)
  | num (q : ℚ)
  | bool (b : Bool)
  | obj (fields : List (String × Jv))
  | arr (items : List Jv)

mutual

/-- JSON text of a value (field names and strings taken escape-free, as all
the serialized values of this code base are). -/
def encodeJv : Jv → String
  | .str s => "\"" ++ s ++ "\""
  | .num q => toString q
  | .bool b => if b then "true" else "false"
  | .obj fields => "\x7b" ++ encodeJvFields fields ++ "\x7d"
  | .arr items => "[" ++ encodeJvItems items ++ "]"

/-- Comma-separated `"name": value` pairs of a JSON object. -/
def encodeJvFields : List (String × Jv) → String
  | [] => ""
  | [(k, v)] => "\"" ++ k ++ "\": " ++ encodeJv v
  | (k, v) :: rest => "\"" ++ k ++ "\": " ++ encodeJv v ++ ", " ++ encodeJvFields rest

/-- Comma-separated items of a JSON array. -/
def encodeJvItems : List Jv → String
  | [] => ""
  | [v] => encodeJv v
  | v :: rest => encodeJv v ++ ", " ++ encodeJvItems rest

end

/-- Dictionary access on a JSON object's field list. -/
def fieldGet : List (String × Jv) → String → Option Jv
  | [], _ => none
  | p :: r, k => if p.1 = k then some p.2 else fieldGet r k

/-- entities.py `AfkStart` as the dispatcher sees it: exactly the declared
fields `timestamp` (serialized to its ISO text) and
`time_since_last_user_activity` (a timedelta, as seconds). -/
structure AfkStart where
  timestamp : String
  time_since_last_user_activity : ℚ
deriving DecidableEq, Repr

/-- Pydantic `model_dump` of an `AfkStart`: one entry per declared field. -/
def afk_start_model_dump (e : AfkStart) : List (String × Jv) :=
  [("timestamp", Jv.str e.timestamp),
   ("time_since_last_user_activity", Jv.num e.time_since_last_user_activity)]

/-- `event.model_dump_json()` in sender.py `send_afk_start`. -/
def afk_start_model_dump_json (e : AfkStart) : String :=
  encodeJv (Jv.obj (afk_start_model_dump e))

/-- The value sender.py line 45 passes to httpx as `json=model_data`: the
already-serialized JSON text, i.e. a Python `str`, which httpx then encodes
as a JSON string. -/
def send_afk_start_json_arg (e : AfkStart) : Jv :=
  Jv.str (afk_start_model_dump_json e)

/-- Endpoint path used for `DesktopCheck` events (sender.py line 72). -/
def screenshot_input_path : String := "/sources/aggregator/desktop/screenshot-input"

/-- Endpoint path used for `AfkStart` events (sender.py line 76). -/
def afk_input_path : String := "/sources/aggregator/desktop/afk-input"

/-- `request_sender_worker`'s isinstance dispatch: which endpoint an event is
posted to. -/
def event_route : Event → String
  | .desktopCheck _ _ _ => screenshot_input_path
  | .afkStart _ _ => afk_input_path

/-- Pydantic `model_dump` of a `Bbox`. -/
def bbox_model_dump (b : Bbox) : Jv :=
  Jv.obj [("left", Jv.num (b.left : ℚ)), ("top", Jv.num (b.top : ℚ)),
          ("width", Jv.num (b.width : ℚ)), ("height", Jv.num (b.height : ℚ))]

/-- Pydantic `model_dump` of a `WindowInfo`. -/
def window_info_model_dump (w : WindowInfo) : Jv :=
  Jv.obj [("title", Jv.str w.title), ("app_name", Jv.str w.app_name),
          ("is_active", Jv.bool w.is_active), ("bbox", bbox_model_dump w.bbox),
          ("monitor_names", Jv.arr (w.monitor_names.map Jv.str))]

/-- The `model_data` dictionary of sender.py `send_desktop_check`
(lines 25-29): window dump, ISO timestamp, and
`time_since_last_user_activity.total_seconds()`. -/
def desktop_check_model_data (w : WindowInfo) (iso_timestamp : String) (tslua : ℚ) :
    List (String × Jv) :=
  [("active_window", window_info_model_dump w),
   ("timestamp", Jv.str iso_timestamp),
   ("time_since_last_user_activity", Jv.num tslua)]

/-- Minimum spacing `cd` along a list of timestamps, measured from a base
timestamp: each entry exceeds its predecessor (the base for the first
entry) by at least `cd`. -/
def gapChain (cd : ℚ) : ℚ → List ℚ → Prop
  | _, [] => True
  | b, t :: r => cd ≤ t - b ∧ gapChain cd t r

/-- Spacing relative to an optional base: with no base only the gaps inside
the list itself are constrained. -/
def chainOpt (cd : ℚ) : Option ℚ → List ℚ → Prop
  | some v, ts => gapChain cd v ts
  | none, [] => True
  | none, t :: r => gapChain cd t r

/-- Every two consecutive entries of `ts` are at least `cd` apart. -/
def consecGaps (cd : ℚ) (ts : List ℚ) : Prop :=
  ∀ i : ℕ, i + 1 < ts.length → cd ≤ ts.getD (i + 1) 0 - ts.getD i 0

/-- Every two entries of `ts` (in order) are at least `cd` apart. -/
def pairGaps (cd : ℚ) (ts : List ℚ) : Prop :=
  ∀ i j : ℕ, i < j → j < ts.length → cd ≤ ts.getD j 0 - ts.getD i 0

/-- A sample relevant window used to instantiate the scheduler theorems. -/
def wA : WindowInfo := ⟨"a", "A", true, ⟨0, 0, 400, 400⟩, []⟩

lemma odGet_odSet_self (d : List (String × ℚ)) (k : String) (v : ℚ) :
    odGet (odSet d k v) k = some v := by
  induction d with
  | nil => simp [odSet, odGet]
  | cons p r ih =>
    by_cases h : p.1 = k
    · simp [odSet, odGet, h]
    · simp [odSet, odGet, h, ih]

lemma odGet_odSet_ne (d : List (String × ℚ)) (k : String) (v : ℚ) (h : String)
    (hne : h ≠ k) : odGet (odSet d k v) h = odGet d h := by
  induction d with
  | nil => simp [odSet, odGet, Ne.symm hne]
  | cons p r ih =>
    by_cases hp : p.1 = k
    · simp [odSet, odGet, hp, Ne.symm hne]
    · simp [odSet, odGet, hp, ih]

lemma odSet_length (d : List (String × ℚ)) (k : String) (v : ℚ) :
    (odSet d k v).length ≤ d.length + 1 := by
  induction d with
  | nil => simp [odSet]
  | cons p r ih =>
    by_cases h : p.1 = k
    · simp [odSet, h]
    · simp only [odSet, if_neg h, List.length_cons]
      omega

lemma odSet_pos (k : String) (v : ℚ) (hv : 0 < v) :
    ∀ d : List (String × ℚ), (∀ p ∈ d, 0 < p.2) → ∀ p ∈ odSet d k v, 0 < p.2 := by
  intro d
  induction d with
  | nil =>
    intro _ p hp
    simp [odSet] at hp
    rw [hp]
    exact hv
  | cons q r ih =>
    intro hd p hp
    by_cases h : q.1 = k <;> simp [odSet, h] at hp
    · rcases hp with hp | hp
      · rw [hp]; exact hv
      · exact hd p (List.mem_cons_of_mem _ hp)
    · rcases hp with hp | hp
      · rw [hp]; exact hd q (List.mem_cons_self _ _)
      · exact ih (fun x hx => hd x (List.mem_cons_of_mem _ hx)) p hp

lemma odGet_mem (k : String) (v : ℚ) :
    ∀ d : List (String × ℚ), odGet d k = some v → (k, v) ∈ d := by
  intro d
  induction d with
  | nil => intro hc; simp [odGet] at hc
  | cons p r ih =>
    intro hm
    by_cases h : p.1 = k
    · simp [odGet, h] at hm
      have : p = (k, v) := by
        rcases p with ⟨p1, p2⟩
        simp at h hm
        exact Prod.ext h hm
      rw [← this]
      exact List.mem_cons_self _ _
    · simp [odGet, h] at hm
      exact List.mem_cons_of_mem _ (ih hm)

lemma odPrune_eq (d : List (String × ℚ)) (h : ¬ 1000 < d.length) : odPrune d = d :=
  if_neg h

lemma shotTimes_append (a b : List Event) :
    shotTimes (a ++ b) = shotTimes a ++ shotTimes b := by
  induction a with
  | nil => rfl
  | cons e r ih => cases e <;> simp [shotTimes, ih]

lemma shotTimesFor_append (h : String) (a b : List Event) :
    shotTimesFor h (a ++ b) = shotTimesFor h a ++ shotTimesFor h b := by
  induction a with
  | nil => rfl
  | cons e r ih =>
    cases e with
    | desktopCheck w t q =>
      simp only [List.cons_append, shotTimesFor]
      split <;> simp [ih]
    | afkStart t i => simp [shotTimesFor, ih]

lemma gapChain_consec (cd : ℚ) :
    ∀ (ts : List ℚ) (b : ℚ), gapChain cd b ts → consecGaps cd (b :: ts) := by
  intro ts
  induction ts with
  | nil =>
    intro b _ i hi
    simp at hi
  | cons t r ih =>
    intro b hc i hi
    match i with
    | 0 => exact hc.1
    | Nat.succ j =>
      have hj : j + 1 < (t :: r).length := by
        simp only [List.length_cons] at hi ⊢
        omega
      exact ih t hc.2 j hj

lemma gapChain_consec_tail (cd : ℚ) (ts : List ℚ) (b : ℚ) (h : gapChain cd b ts) :
    consecGaps cd ts := by
  cases ts with
  | nil => intro i hi; simp at hi
  | cons t r => exact gapChain_consec cd r t h.2

lemma consecGaps_pairGaps (cd : ℚ) (ts : List ℚ) (hcd : 0 ≤ cd)
    (h : consecGaps cd ts) : pairGaps cd ts := by
  intro i j
  induction j with
  | zero => intro hij _; exact absurd hij (Nat.not_lt_zero i)
  | succ j ihj =>
    intro hij hj
    rcases Nat.lt_succ_iff_lt_or_eq.mp hij with h1 | h1
    · have hgap := h j hj
      have hplus := ihj h1 (Nat.lt_of_succ_lt hj)
      linarith
    · rw [h1]
      exact h j hj

lemma capture_branch_rundown (cfg : SchedConfig) (st : SchedState) (inp : TickInput)
    (w : WindowInfo) :
    capture_branch cfg st inp w = (st, []) ∨
    (inp.capture_ok = true ∧
      (∀ v, odGet st.window_hash_last_seen (window_to_hash w) = some v →
        v = 0 ∨ cfg.same_window_cd ≤ inp.now - v) ∧
      capture_branch cfg st inp w =
        (shotUpdate st (window_to_hash w) inp.now, [screenshot_and_publish w inp.now])) := by
  unfold capture_branch
  by_cases hs : same_window_sleep cfg st inp.now (window_to_hash w)
  · left; rw [if_pos hs]
  · rw [if_neg hs]
    by_cases hr : inp.now - st.last_change_ts < cfg.global_cd ∨
        ¬ inp.now - st.last_shot_ts < cfg.constant_window_cd
    · rw [if_pos hr]
      by_cases hc : inp.capture_ok = true
      · right
        refine ⟨hc, ?_, by rw [if_pos hc]⟩
        intro v hv
        by_cases h0 : v = 0
        · exact Or.inl h0
        · refine Or.inr (not_lt.mp ?_)
          intro hlt
          exact hs ⟨v, hv, h0, hlt⟩
      · left; rw [if_neg hc]
    · left; rw [if_neg hr]

lemma hash_change_update_wls (st : SchedState) (now : ℚ) (cur_hash : String) :
    (hash_change_update st now cur_hash).window_hash_last_seen =
      st.window_hash_last_seen := by
  unfold hash_change_update; split <;> rfl

lemma hash_change_update_shot (st : SchedState) (now : ℚ) (cur_hash : String) :
    (hash_change_update st now cur_hash).last_shot_ts = st.last_shot_ts := by
  unfold hash_change_update; split <;> rfl

lemma tick_rundown (cfg : SchedConfig) (st : SchedState) (inp : TickInput) :
    (((capture_loop_tick cfg st inp).2 = [] ∨
        (capture_loop_tick cfg st inp).2 = [Event.afkStart inp.now inp.idle]) ∧
      (capture_loop_tick cfg st inp).1.window_hash_last_seen = st.window_hash_last_seen ∧
      (capture_loop_tick cfg st inp).1.last_shot_ts = st.last_shot_ts) ∨
    (∃ w, inp.cur_window = some w ∧ inp.capture_ok = true ∧
      cfg.global_cd ≤ inp.now - st.last_shot_ts ∧
      (∀ v, odGet st.window_hash_last_seen (window_to_hash w) = some v →
        v = 0 ∨ cfg.same_window_cd ≤ inp.now - v) ∧
      (capture_loop_tick cfg st inp).2 = [Event.desktopCheck w inp.now 0] ∧
      (capture_loop_tick cfg st inp).1.window_hash_last_seen =
        odPrune (odSet st.window_hash_last_seen (window_to_hash w) inp.now) ∧
      (capture_loop_tick cfg st inp).1.last_shot_ts = inp.now) := by
  by_cases hafk : cfg.afk_timeout < inp.idle
  · by_cases hl : st.is_afk = true
    · have heq : capture_loop_tick cfg st inp = (st, []) := by
        unfold capture_loop_tick; rw [if_pos hafk, if_pos hl]
      left; rw [heq]; exact ⟨Or.inl rfl, rfl, rfl⟩
    · have heq : capture_loop_tick cfg st inp =
          ({ st with is_afk := true }, [Event.afkStart inp.now inp.idle]) := by
        unfold capture_loop_tick; rw [if_pos hafk, if_neg hl]
      left; rw [heq]; exact ⟨Or.inr rfl, rfl, rfl⟩
  · by_cases hg : inp.now - st.last_shot_ts < cfg.global_cd
    · have heq : capture_loop_tick cfg st inp = ({ st with is_afk := false }, []) := by
        unfold capture_loop_tick; rw [if_neg hafk, if_pos hg]
      left; rw [heq]; exact ⟨Or.inl rfl, rfl, rfl⟩
    · cases hw : inp.cur_window with
      | none =>
        have heq : capture_loop_tick cfg st inp = ({ st with is_afk := false }, []) := by
          unfold capture_loop_tick; rw [if_neg hafk, if_neg hg, hw]
        left; rw [heq]; exact ⟨Or.inl rfl, rfl, rfl⟩
      | some w =>
        have heq : capture_loop_tick cfg st inp =
            capture_branch cfg
              (hash_change_update { st with is_afk := false } inp.now (window_to_hash w))
              inp w := by
          unfold capture_loop_tick; rw [if_neg hafk, if_neg hg, hw]
        have h2w := hash_change_update_wls { st with is_afk := false } inp.now
          (window_to_hash w)
        have h2s := hash_change_update_shot { st with is_afk := false } inp.now
          (window_to_hash w)
        rcases capture_branch_rundown cfg
            (hash_change_update { st with is_afk := false } inp.now (window_to_hash w))
            inp w with hb | ⟨hc, hv, hb⟩
        · left
          rw [heq, hb]
          exact ⟨Or.inl rfl, h2w, h2s⟩
        · right
          rw [h2w] at hv
          refine ⟨w, rfl, hc, not_lt.mp hg, hv, ?_, ?_, ?_⟩
          · rw [heq, hb]
            rfl
          · rw [heq, hb]
            simp [shotUpdate, h2w]
          · rw [heq, hb]
            simp [shotUpdate]

lemma run_shot_chain (cfg : SchedConfig) (inputs : List TickInput) :
    ∀ st : SchedState,
      gapChain cfg.global_cd st.last_shot_ts
        (shotTimes (capture_loop_run cfg st inputs)) := by
  induction inputs with
  | nil =>
    intro st
    simp [capture_loop_run, shotTimes, gapChain]
  | cons inp rest ih =>
    intro st
    have hrun : capture_loop_run cfg st (inp :: rest) =
        (capture_loop_tick cfg st inp).2 ++
          capture_loop_run cfg (capture_loop_tick cfg st inp).1 rest := rfl
    rcases tick_rundown cfg st inp with ⟨hev, _, hshot⟩ |
      ⟨w, _, _, hcd, _, hev, _, hshot⟩
    · have hz : shotTimes (capture_loop_tick cfg st inp).2 = [] := by
        rcases hev with hev | hev <;> rw [hev] <;> rfl
      rw [hrun, shotTimes_append, hz, List.nil_append, ← hshot]
      exact ih _
    · have hz : shotTimes (capture_loop_tick cfg st inp).2 = [inp.now] := by
        rw [hev]; rfl
      rw [hrun, shotTimes_append, hz, List.singleton_append]
      refine ⟨hcd, ?_⟩
      rw [← hshot]
      exact ih _

lemma run_same_window_chain (cfg : SchedConfig) (h : String) (inputs : List TickInput) :
    ∀ st : SchedState,
      (∀ inp ∈ inputs, 0 < inp.now) →
      (∀ p ∈ st.window_hash_last_seen, 0 < p.2) →
      (∀ s ∈ capture_loop_states cfg st inputs,
        s.window_hash_last_seen.length < 1000) →
      chainOpt cfg.same_window_cd (odGet st.window_hash_last_seen h)
        (shotTimesFor h (capture_loop_run cfg st inputs)) := by
  induction inputs with
  | nil =>
    intro st _ _ _
    cases hb : odGet st.window_hash_last_seen h <;>
      simp [capture_loop_run, shotTimesFor, chainOpt, gapChain]
  | cons inp rest ih =>
    intro st hpos hwpos hsz
    have hpos2 : ∀ i ∈ rest, 0 < i.now := fun i hi => hpos i (List.mem_cons_of_mem _ hi)
    have hszh : st.window_hash_last_seen.length < 1000 := by
      refine hsz st ?_
      simp [capture_loop_states]
    have hszt : ∀ s ∈ capture_loop_states cfg (capture_loop_tick cfg st inp).1 rest,
        s.window_hash_last_seen.length < 1000 := by
      intro s hs
      refine hsz s ?_
      simp only [capture_loop_states, List.mem_cons]
      exact Or.inr hs
    have hrun : capture_loop_run cfg st (inp :: rest) =
        (capture_loop_tick cfg st inp).2 ++
          capture_loop_run cfg (capture_loop_tick cfg st inp).1 rest := rfl
    rcases tick_rundown cfg st inp with ⟨hev, hwls, _⟩ |
      ⟨w, _, _, _, hgate, hev, hwls, _⟩
    · have hz : shotTimesFor h (capture_loop_tick cfg st inp).2 = [] := by
        rcases hev with hev | hev <;> rw [hev] <;> rfl
      rw [hrun, shotTimesFor_append, hz, List.nil_append]
      have hrest := ih (capture_loop_tick cfg st inp).1 hpos2
        (by rw [hwls]; exact hwpos) hszt
      rw [hwls] at hrest
      exact hrest
    · have hnow : 0 < inp.now := hpos inp (List.mem_cons_self _ _)
      have hnoev : odPrune (odSet st.window_hash_last_seen (window_to_hash w) inp.now) =
          odSet st.window_hash_last_seen (window_to_hash w) inp.now := by
        refine odPrune_eq _ ?_
        have := odSet_length st.window_hash_last_seen (window_to_hash w) inp.now
        omega
      have hwls2 : (capture_loop_tick cfg st inp).1.window_hash_last_seen =
          odSet st.window_hash_last_seen (window_to_hash w) inp.now := by
        rw [hwls, hnoev]
      have hwpos2 : ∀ p ∈ (capture_loop_tick cfg st inp).1.window_hash_last_seen,
          0 < p.2 := by
        rw [hwls2]
        exact odSet_pos _ _ hnow _ hwpos
      have hrest := ih (capture_loop_tick cfg st inp).1 hpos2 hwpos2 hszt
      by_cases hh : window_to_hash w = h
      · have hz : shotTimesFor h (capture_loop_tick cfg st inp).2 = [inp.now] := by
          rw [hev]; simp [shotTimesFor, hh]
        rw [hrun, shotTimesFor_append, hz, List.singleton_append]
        have hbase : odGet (capture_loop_tick cfg st inp).1.window_hash_last_seen h =
            some inp.now := by
          rw [hwls2, ← hh]
          exact odGet_odSet_self _ _ _
        rw [hbase] at hrest
        cases hb : odGet st.window_hash_last_seen h with
        | none => exact hrest
        | some v =>
          have hvpos : 0 < v := hwpos (h, v) (odGet_mem h v _ hb)
          have hv2 : odGet st.window_hash_last_seen (window_to_hash w) = some v := by
            rw [hh]; exact hb
          rcases hgate v hv2 with h0 | hle
          · exact absurd h0 (ne_of_gt hvpos)
          · exact ⟨hle, hrest⟩
      · have hz : shotTimesFor h (capture_loop_tick cfg st inp).2 = [] := by
          rw [hev]; simp [shotTimesFor, hh]
        rw [hrun, shotTimesFor_append, hz, List.nil_append]
        have hbase : odGet (capture_loop_tick cfg st inp).1.window_hash_last_seen h =
            odGet st.window_hash_last_seen h := by
          rw [hwls2]
          exact odGet_odSet_ne _ _ _ _ (fun hcon => hh hcon.symm)
        rw [hbase] at hrest
        exact hrest

lemma run_tslua (cfg : SchedConfig) (inputs : List TickInput) :
    ∀ (st : SchedState) (w : WindowInfo) (t q : ℚ),
      Event.desktopCheck w t q ∈ capture_loop_run cfg st inputs → q = 0 := by
  induction inputs with
  | nil => intro st w t q hm; simp [capture_loop_run] at hm
  | cons inp rest ih =>
    intro st w t q hm
    have hrun : capture_loop_run cfg st (inp :: rest) =
        (capture_loop_tick cfg st inp).2 ++
          capture_loop_run cfg (capture_loop_tick cfg st inp).1 rest := rfl
    rw [hrun, List.mem_append] at hm
    rcases hm with hm | hm
    · rcases tick_rundown cfg st inp with ⟨hev, _, _⟩ | ⟨w2, _, _, _, _, hev, _, _⟩
      · rcases hev with hev | hev <;> rw [hev] at hm <;> simp at hm
      · rw [hev] at hm
        simp at hm
        exact hm.2.2
    · exact ih _ _ _ _ hm

lemma run_afk_silent (cfg : SchedConfig) (inputs : List TickInput) :
    ∀ st : SchedState, st.is_afk = true →
      (∀ inp ∈ inputs, cfg.afk_timeout < inp.idle) →
      capture_loop_run cfg st inputs = [] := by
  induction inputs with
  | nil => intro st _ _; rfl
  | cons inp rest ih =>
    intro st hl hidle
    have hafk : cfg.afk_timeout < inp.idle := hidle inp (List.mem_cons_self _ _)
    have heq : capture_loop_tick cfg st inp = (st, []) := by
      unfold capture_loop_tick
      rw [if_pos hafk, if_pos hl]
    have hrun : capture_loop_run cfg st (inp :: rest) =
        (capture_loop_tick cfg st inp).2 ++
          capture_loop_run cfg (capture_loop_tick cfg st inp).1 rest := rfl
    rw [hrun, heq, List.nil_append]
    exact ih st hl (fun i hi => hidle i (List.mem_cons_of_mem _ hi))

/-- C1: between any two consecutive DesktopCheck emissions of a session
(the bootstrap shot included) the elapsed monotonic time is at least
`global_cd`; moreover a tick emits a shot only when
`now - last_shot_ts >= global_cd`, the shot carries the tick's `now`, and
`last_shot_ts` is set to that `now`. -/
theorem desktop_check_global_cooldown (cfg : SchedConfig) (w0 : WindowInfo) (t0 : ℚ)
    (bOk : Bool) (inputs : List TickInput) :
    consecGaps cfg.global_cd (shotTimes (session_events cfg w0 t0 bOk inputs)) ∧
    (∀ (st : SchedState) (inp : TickInput) (w : WindowInfo) (t q : ℚ),
      Event.desktopCheck w t q ∈ (capture_loop_tick cfg st inp).2 →
      cfg.global_cd ≤ inp.now - st.last_shot_ts ∧ t = inp.now ∧
        (capture_loop_tick cfg st inp).1.last_shot_ts = inp.now) := by
  constructor
  · have hchain := run_shot_chain cfg inputs (init_sched_state w0 t0)
    cases bOk with
    | true =>
      have hsess : shotTimes (session_events cfg w0 t0 true inputs) =
          t0 :: shotTimes (capture_loop_run cfg (init_sched_state w0 t0) inputs) := rfl
      rw [hsess]
      exact gapChain_consec _ _ _ hchain
    | false =>
      have hsess : shotTimes (session_events cfg w0 t0 false inputs) =
          shotTimes (capture_loop_run cfg (init_sched_state w0 t0) inputs) := rfl
      rw [hsess]
      exact gapChain_consec_tail _ _ _ hchain
  · intro st inp w t q hm
    rcases tick_rundown cfg st inp with ⟨hev, _, _⟩ | ⟨w2, _, _, hcd, _, hev, _, hshot⟩
    · rcases hev with hev | hev <;> rw [hev] at hm <;> simp at hm
    · rw [hev] at hm
      simp at hm
      exact ⟨hcd, hm.2.1, hshot⟩

/-- Witness for C1 on a concrete session: bootstrap shot at 100, next shot at
130, spacing at least the 5-second global cooldown. -/
theorem desktop_check_global_cooldown_witness :
    default_sched_config.global_cd ≤
      (shotTimes (session_events default_sched_config wA 100 true
          [⟨130, 0, some wA, true⟩])).getD 1 0 -
        (shotTimes (session_events default_sched_config wA 100 true
          [⟨130, 0, some wA, true⟩])).getD 0 0 :=
  (desktop_check_global_cooldown default_sched_config wA 100 true
    [⟨130, 0, some wA, true⟩]).1 0 (by
      norm_num [session_events, capture_loop_run, capture_loop_tick, capture_branch,
        hash_change_update, same_window_sleep, odGet, odSet, odPrune, shotUpdate,
        init_sched_state, window_to_hash, wA, default_sched_config,
        screenshot_and_publish, shotTimes])

/-- C3: a tick with `idle_seconds > afk_timeout` and a clear latch emits
exactly one `AfkStart(now, idle_seconds)` and sets the latch; with the latch
set such a tick emits nothing at all; a tick with
`idle_seconds <= afk_timeout` clears the latch; and a whole run whose ticks
all observe `idle_seconds > afk_timeout` from a latched state emits no
events. -/
theorem afk_latch_spec (cfg : SchedConfig) :
    (∀ (st : SchedState) (inp : TickInput), cfg.afk_timeout < inp.idle →
      st.is_afk = false →
      capture_loop_tick cfg st inp =
        ({ st with is_afk := true }, [Event.afkStart inp.now inp.idle])) ∧
    (∀ (st : SchedState) (inp : TickInput), cfg.afk_timeout < inp.idle →
      st.is_afk = true → capture_loop_tick cfg st inp = (st, [])) ∧
    (∀ (st : SchedState) (inp : TickInput), inp.idle ≤ cfg.afk_timeout →
      (capture_loop_tick cfg st inp).1.is_afk = false) ∧
    (∀ (st : SchedState) (inputs : List TickInput), st.is_afk = true →
      (∀ inp ∈ inputs, cfg.afk_timeout < inp.idle) →
      capture_loop_run cfg st inputs = []) := by
  refine ⟨?_, ?_, ?_, ?_⟩
  · intro st inp hi hl
    unfold capture_loop_tick
    rw [if_pos hi, if_neg (by simp [hl])]
  · intro st inp hi hl
    unfold capture_loop_tick
    rw [if_pos hi, if_pos hl]
  · intro st inp hi
    have hni : ¬ cfg.afk_timeout < inp.idle := not_lt.mpr hi
    unfold capture_loop_tick
    rw [if_neg hni]
    by_cases hg : inp.now - st.last_shot_ts < cfg.global_cd
    · rw [if_pos hg]
    · rw [if_neg hg]
      cases hw : inp.cur_window with
      | none => rfl
      | some w =>
        show (capture_branch cfg
          (hash_change_update { st with is_afk := false } inp.now (window_to_hash w))
          inp w).1.is_afk = false
        have h2 : (hash_change_update { st with is_afk := false } inp.now
            (window_to_hash w)).is_afk = false := by
          unfold hash_change_update; split <;> rfl
        rcases capture_branch_rundown cfg
            (hash_change_update { st with is_afk := false } inp.now (window_to_hash w))
            inp w with hb | ⟨_, _, hb⟩
        · rw [hb]; exact h2
        · rw [hb]; simpa [shotUpdate] using h2
  · intro st inputs hl hall
    exact run_afk_silent cfg inputs st hl hall

/-- Witness for C3 at a concrete tick: idle 400 s exceeds the 300 s timeout
with the latch clear, producing exactly one AfkStart and setting the latch. -/
theorem afk_latch_spec_witness :
    capture_loop_tick default_sched_config (init_sched_state wA 100)
        ⟨101, 400, none, false⟩ =
      ({ init_sched_state wA 100 with is_afk := true }, [Event.afkStart 101 400]) :=
  (afk_latch_spec default_sched_config).1 (init_sched_state wA 100)
    ⟨101, 400, none, false⟩ (by decide) rfl

/-- C2: in a session whose monotonic clock readings are positive and whose
`window_hash_last_seen` map never fills up to its 1000-entry cap (so no
eviction occurs), any two DesktopCheck emissions carrying the same window
hash are at least `same_window_cd` apart; moreover a tick whose current
window has a nonzero recorded `last_seen` within `same_window_cd` of `now`
emits no DesktopCheck, and a successful shot records
`window_last_seen[cur_hash] = now`. -/
theorem desktop_check_same_window_cooldown (cfg : SchedConfig) (w0 : WindowInfo)
    (t0 : ℚ) (bOk : Bool) (inputs : List TickInput) (h : String)
    (hcd : 0 ≤ cfg.same_window_cd) (ht0 : 0 < t0)
    (hpos : ∀ inp ∈ inputs, 0 < inp.now)
    (hsz : ∀ s ∈ capture_loop_states cfg (init_sched_state w0 t0) inputs,
      s.window_hash_last_seen.length < 1000) :
    pairGaps cfg.same_window_cd (shotTimesFor h (session_events cfg w0 t0 bOk inputs)) ∧
    (∀ (st : SchedState) (inp : TickInput) (w : WindowInfo) (ls : ℚ),
      inp.cur_window = some w →
      odGet st.window_hash_last_seen (window_to_hash w) = some ls → ls ≠ 0 →
      inp.now - ls < cfg.same_window_cd →
      shotTimes (capture_loop_tick cfg st inp).2 = []) ∧
    (∀ (st : SchedState) (inp : TickInput) (w : WindowInfo) (t q : ℚ),
      st.window_hash_last_seen.length < 1000 →
      Event.desktopCheck w t q ∈ (capture_loop_tick cfg st inp).2 →
      odGet (capture_loop_tick cfg st inp).1.window_hash_last_seen (window_to_hash w) =
        some inp.now) := by
  refine ⟨?_, ?_, ?_⟩
  · have hwpos0 : ∀ p ∈ (init_sched_state w0 t0).window_hash_last_seen, 0 < p.2 := by
      intro p hp
      simp [init_sched_state] at hp
      rw [hp]
      exact ht0
    have hmain := run_same_window_chain cfg h inputs (init_sched_state w0 t0)
      hpos hwpos0 hsz
    by_cases hh : window_to_hash w0 = h
    · have hbase : odGet (init_sched_state w0 t0).window_hash_last_seen h = some t0 := by
        simp [init_sched_state, odGet, hh]
      rw [hbase] at hmain
      cases bOk with
      | true =>
        have hsess : shotTimesFor h (session_events cfg w0 t0 true inputs) =
            t0 :: shotTimesFor h
              (capture_loop_run cfg (init_sched_state w0 t0) inputs) := by
          simp [session_events, shotTimesFor, screenshot_and_publish, hh]
        rw [hsess]
        exact consecGaps_pairGaps _ _ hcd (gapChain_consec _ _ _ hmain)
      | false =>
        have hsess : shotTimesFor h (session_events cfg w0 t0 false inputs) =
            shotTimesFor h (capture_loop_run cfg (init_sched_state w0 t0) inputs) := rfl
        rw [hsess]
        exact consecGaps_pairGaps _ _ hcd (gapChain_consec_tail _ _ _ hmain)
    · have hbase : odGet (init_sched_state w0 t0).window_hash_last_seen h = none := by
        simp [init_sched_state, odGet, hh]
      rw [hbase] at hmain
      have hsess : shotTimesFor h (session_events cfg w0 t0 bOk inputs) =
          shotTimesFor h (capture_loop_run cfg (init_sched_state w0 t0) inputs) := by
        cases bOk with
        | true => simp [session_events, shotTimesFor, screenshot_and_publish, hh]
        | false => rfl
      rw [hsess]
      rcases hts : shotTimesFor h (capture_loop_run cfg (init_sched_state w0 t0) inputs)
        with _ | ⟨t, r⟩
      · intro i j _ hj
        simp at hj
      · rw [hts] at hmain
        exact consecGaps_pairGaps _ _ hcd (gapChain_consec _ _ _ hmain)
  · intro st inp w ls hw hls hne hlt
    rcases tick_rundown cfg st inp with ⟨hev, _, _⟩ | ⟨w2, hw2, _, _, hgate, hev, _, _⟩
    · rcases hev with hev | hev <;> rw [hev] <;> rfl
    · rw [hw] at hw2
      have hww : w = w2 := Option.some.inj hw2
      rw [← hww] at hgate
      rcases hgate ls hls with h0 | hle
      · exact absurd h0 hne
      · exact absurd hlt (not_lt.mpr hle)
  · intro st inp w t q hlen hm
    rcases tick_rundown cfg st inp with ⟨hev, _, _⟩ | ⟨w2, _, _, _, _, hev, hwls, _⟩
    · rcases hev with hev | hev <;> rw [hev] at hm <;> simp at hm
    · rw [hev] at hm
      simp at hm
      obtain ⟨hww, -, -⟩ := hm
      rw [hwls, hww]
      have hnoev : odPrune (odSet st.window_hash_last_seen (window_to_hash w2) inp.now) =
          odSet st.window_hash_last_seen (window_to_hash w2) inp.now := by
        refine odPrune_eq _ ?_
        have := odSet_length st.window_hash_last_seen (window_to_hash w2) inp.now
        omega
      rw [hnoev]
      exact odGet_odSet_self _ _ _

/-- Witness for C2 on a concrete session: the bootstrap shot of window `wA`
at 100 and a second shot of the same window at 130 are at least 15 s apart. -/
theorem desktop_check_same_window_cooldown_witness :
    default_sched_config.same_window_cd ≤
      (shotTimesFor (window_to_hash wA) (session_events default_sched_config wA 100 true
          [⟨130, 0, some wA, true⟩])).getD 1 0 -
        (shotTimesFor (window_to_hash wA) (session_events default_sched_config wA 100 true
          [⟨130, 0, some wA, true⟩])).getD 0 0 :=
  (desktop_check_same_window_cooldown default_sched_config wA 100 true
      [⟨130, 0, some wA, true⟩] (window_to_hash wA)
      (by decide) (by decide)
      (by
        intro inp hm
        simp at hm
        rw [hm]
        decide)
      (by
        norm_num [capture_loop_states, capture_loop_tick, capture_branch,
          hash_change_update, same_window_sleep, odGet, odSet, odPrune, shotUpdate,
          init_sched_state, window_to_hash, wA, default_sched_config,
          screenshot_and_publish])).1 0 1 (by omega)
    (by
      norm_num [session_events, capture_loop_run, capture_loop_tick, capture_branch,
        hash_change_update, same_window_sleep, odGet, odSet, odPrune, shotUpdate,
        init_sched_state, window_to_hash, wA, default_sched_config,
        screenshot_and_publish, shotTimesFor])

/-- C9: every DesktopCheck a session enqueues carries
`time_since_last_user_activity = 0`, so the `data` JSON of
`send_desktop_check` always serializes that field as 0. -/
theorem desktop_check_tslua_zero (cfg : SchedConfig) (w0 : WindowInfo) (t0 : ℚ)
    (bOk : Bool) (inputs : List TickInput) :
    (∀ (w : WindowInfo) (t q : ℚ),
      Event.desktopCheck w t q ∈ session_events cfg w0 t0 bOk inputs → q = 0) ∧
    (∀ (w : WindowInfo) (t q : ℚ) (iso : String),
      Event.desktopCheck w t q ∈ session_events cfg w0 t0 bOk inputs →
      fieldGet (desktop_check_model_data w iso q) "time_since_last_user_activity" =
        some (Jv.num 0)) := by
  have hmain : ∀ (w : WindowInfo) (t q : ℚ),
      Event.desktopCheck w t q ∈ session_events cfg w0 t0 bOk inputs → q = 0 := by
    intro w t q hm
    unfold session_events at hm
    rw [List.mem_append] at hm
    rcases hm with hm | hm
    · cases bOk with
      | true =>
        simp [screenshot_and_publish] at hm
        exact hm.2.2
      | false => simp at hm
    · exact run_tslua cfg inputs _ _ _ _ hm
  refine ⟨hmain, ?_⟩
  intro w t q iso hm
  rw [hmain w t q hm]
  rfl

/-- Witness for C9 at a concrete session whose only event is the bootstrap
DesktopCheck, which indeed carries a zero idle field. -/
theorem desktop_check_tslua_zero_witness : (0 : ℚ) = 0 :=
  (desktop_check_tslua_zero default_sched_config wA 100 true []).1 wA 100 0 (by decide)

/-- C5 counterexample: the fingerprint joins app name and title with an
underscore, not a NUL character, and distinct `(app_name, title)` pairs can
collide: `("a_b", "c")` and `("a", "b_c")` share the fingerprint `"a_b_c"`. -/
theorem window_to_hash_nul_counterexample :
    window_to_hash ⟨"b", "a", true, ⟨0, 0, 0, 0⟩, []⟩ ≠ "a" ++ "\x00" ++ "b" ∧
    window_to_hash ⟨"c", "a_b", true, ⟨0, 0, 0, 0⟩, []⟩ =
      window_to_hash ⟨"b_c", "a", true, ⟨0, 0, 0, 0⟩, []⟩ ∧
    ("a_b" : String) ≠ "a" := by
  refine ⟨?_, rfl, ?_⟩ <;> decide

/-- C5 amended: the fingerprint is `"{app_name}_{title}"` with an underscore
separator, so equal `(app_name, title)` pairs give equal fingerprints, but
the converse fails (underscores in the fields can collide). -/
theorem window_to_hash_spec :
    (∀ w1 w2 : WindowInfo, w1.app_name = w2.app_name → w1.title = w2.title →
      window_to_hash w1 = window_to_hash w2) ∧
    (∃ w1 w2 : WindowInfo, window_to_hash w1 = window_to_hash w2 ∧
      w1.app_name ≠ w2.app_name) ∧
    window_to_hash ⟨"b", "a", true, ⟨0, 0, 0, 0⟩, []⟩ = "a_b" := by
  refine ⟨?_, ?_, rfl⟩
  · intro w1 w2 ha ht
    unfold window_to_hash
    rw [ha, ht]
  · refine ⟨⟨"c", "a_b", true, ⟨0, 0, 0, 0⟩, []⟩, ⟨"b_c", "a", true, ⟨0, 0, 0, 0⟩, []⟩,
      rfl, ?_⟩
    decide

/-- Witness for the amended C5 at two concrete windows agreeing on app name
and title but differing elsewhere. -/
theorem window_to_hash_spec_witness :
    window_to_hash ⟨"b", "a", true, ⟨0, 0, 0, 0⟩, []⟩ =
      window_to_hash ⟨"b", "a", false, ⟨1, 2, 3, 4⟩, ["m"]⟩ :=
  window_to_hash_spec.1 _ _ rfl rfl

/-- C6 counterexample: the AfkStart body handed to httpx is a JSON string
(the pydantic-serialized text), not a JSON object, and in particular no
object body with an `id` field is sent. -/
theorem send_afk_start_no_id_counterexample :
    ¬ ∃ fields : List (String × Jv),
        send_afk_start_json_arg ⟨"2024-01-01T00:00:00+00:00", 301⟩ = Jv.obj fields ∧
        fieldGet fields "id" ≠ none := by
  rintro ⟨fields, hf, -⟩
  exact Jv.noConfusion hf

/-- C6 amended: for an AfkStart event the dispatcher posts to the afk-input
endpoint the pydantic JSON serialization passed as a Python string (so the
wire body is that text re-encoded as a JSON string); the serialized object
has exactly the declared fields `timestamp` and
`time_since_last_user_activity`, and no `id` field. -/
theorem send_afk_start_spec :
    (∀ e : AfkStart, send_afk_start_json_arg e = Jv.str (afk_start_model_dump_json e)) ∧
    (∀ e : AfkStart, (afk_start_model_dump e).map Prod.fst =
      ["timestamp", "time_since_last_user_activity"]) ∧
    (∀ e : AfkStart, fieldGet (afk_start_model_dump e) "id" = none) ∧
    (∀ t i : ℚ, event_route (Event.afkStart t i) = afk_input_path) ∧
    afk_input_path = "/sources/aggregator/desktop/afk-input" :=
  ⟨fun _ => rfl, fun _ => rfl, fun _ => rfl, fun _ _ => rfl, rfl⟩

/-- C8 counterexample: the publish queue is created with `asyncio.Queue()`
whose default maxsize is 0, i.e. unbounded: no finite capacity bounds the
queue length reached by successful non-blocking puts. -/
theorem publish_queue_unbounded_counterexample :
    ¬ ∃ cap : ℕ, 0 < cap ∧ ∀ (xs : List Event) (q : List Event),
        queue_put_list publish_queue_maxsize [] xs = some q → q.length ≤ cap := by
  have hput : ∀ (xs q0 : List Event),
      queue_put_list publish_queue_maxsize q0 xs = some (q0 ++ xs) := by
    intro xs
    induction xs with
    | nil => intro q0; simp [queue_put_list]
    | cons x r ih =>
      intro q0
      have hfull : queue_full publish_queue_maxsize q0.length = false := rfl
      simp [queue_put_list, queue_put, hfull, ih]
  rintro ⟨cap, -, hb⟩
  have h1 := hb (List.replicate (cap + 1) (Event.afkStart 0 0)) _
    (hput (List.replicate (cap + 1) (Event.afkStart 0 0)) [])
  simp at h1

/-- C8 amended: the in-process event queue is unbounded: `asyncio.Queue()` is
created with default maxsize 0, `full()` never holds, a put never blocks, and
`n` puts always reach queue length `n`, for every `n`. -/
theorem publish_queue_unbounded_spec :
    publish_queue_maxsize = 0 ∧
    (∀ q : List Event, queue_full publish_queue_maxsize q.length = false) ∧
    (∀ n : ℕ, ∃ q : List Event,
      queue_put_list publish_queue_maxsize []
          (List.replicate n (Event.afkStart 0 0)) = some q ∧
        q.length = n) := by
  refine ⟨rfl, fun _ => rfl, ?_⟩
  have hput : ∀ (xs q0 : List Event),
      queue_put_list publish_queue_maxsize q0 xs = some (q0 ++ xs) := by
    intro xs
    induction xs with
    | nil => intro q0; simp [queue_put_list]
    | cons x r ih =>
      intro q0
      have hfull : queue_full publish_queue_maxsize q0.length = false := rfl
      simp [queue_put_list, queue_put, hfull, ih]
  intro n
  refine ⟨List.replicate n (Event.afkStart 0 0), hput _ [], by simp⟩

/-- C7: with a known layout union, every successful grim capture uses a
rectangle contained in both the window bbox and the layout union, of
positive size; an empty intersection of bbox and layout makes the capture
fail; and the spec's concrete case (bbox `(-50, 0, 1200x800)`, layout
`(0, 0, 1920x1080)`) produces the geometry string `"0,0 1150x800"`. -/
theorem grim_clamp_spec :
    (∀ (b : Bbox) (lx ly lw lh : Int) (r : GrimRect),
      grim_clamp b (some (lx, ly, lw, lh)) = .ok r →
        lx ≤ r.x ∧ b.left ≤ r.x ∧ r.x + r.w ≤ lx + lw ∧
          r.x + r.w ≤ b.left + b.width ∧
          ly ≤ r.y ∧ b.top ≤ r.y ∧ r.y + r.h ≤ ly + lh ∧
          r.y + r.h ≤ b.top + b.height ∧ 0 < r.w ∧ 0 < r.h) ∧
    (∀ (b : Bbox) (lx ly lw lh : Int),
      min (b.left + b.width) (lx + lw) ≤ max b.left lx ∨
        min (b.top + b.height) (ly + lh) ≤ max b.top ly →
      ∃ msg, grim_clamp b (some (lx, ly, lw, lh)) = .error msg) ∧
    (grim_clamp ⟨-50, 0, 1200, 800⟩ (some (0, 0, 1920, 1080))).map grim_geometry =
      Except.ok "0,0 1150x800" := by
  refine ⟨?_, ?_, ?_⟩
  · intro b lx ly lw lh r hok
    unfold grim_clamp at hok
    by_cases h1 : b.width ≤ 0 ∨ b.height ≤ 0
    · rw [if_pos h1] at hok
      cases hok
    · rw [if_neg h1] at hok
      by_cases h2 : max 0 (min (b.left + b.width) (lx + lw) - max b.left lx) ≤ 0 ∨
          max 0 (min (b.top + b.height) (ly + lh) - max b.top ly) ≤ 0
      · rw [if_pos h2] at hok
        cases hok
      · rw [if_neg h2] at hok
        have hr : r = GrimRect.mk (max b.left lx) (max b.top ly)
            (max 0 (min (b.left + b.width) (lx + lw) - max b.left lx))
            (max 0 (min (b.top + b.height) (ly + lh) - max b.top ly)) :=
          (Except.ok.inj hok).symm
        rw [hr]
        push_neg at h2
        simp only
        omega
  · intro b lx ly lw lh hempty
    unfold grim_clamp
    by_cases h1 : b.width ≤ 0 ∨ b.height ≤ 0
    · exact ⟨_, by rw [if_pos h1]⟩
    · have hcond : max 0 (min (b.left + b.width) (lx + lw) - max b.left lx) ≤ 0 ∨
          max 0 (min (b.top + b.height) (ly + lh) - max b.top ly) ≤ 0 := by
        rcases hempty with he | he
        · left; omega
        · right; omega
      exact ⟨_, by rw [if_neg h1, if_pos hcond]⟩
  · rfl

/-- Witness for C7: the containment facts instantiated at the spec's concrete
clamp example. -/
theorem grim_clamp_spec_witness :
    (0 : Int) ≤ 0 ∧ (-50 : Int) ≤ 0 ∧ (0 : Int) + 1150 ≤ 0 + 1920 ∧
      (0 : Int) + 1150 ≤ -50 + 1200 ∧ (0 : Int) ≤ 0 ∧ (0 : Int) ≤ 0 ∧
      (0 : Int) + 800 ≤ 0 + 1080 ∧ (0 : Int) + 800 ≤ 0 + 800 ∧
      (0 : Int) < 1150 ∧ (0 : Int) < 800 :=
  grim_clamp_spec.1 ⟨-50, 0, 1200, 800⟩ 0 0 1920 1080 ⟨0, 0, 1150, 800⟩ rfl

lemma intersection_comm (a b : Bbox) : intersection a b = intersection b a := by
  unfold intersection
  rw [min_comm (a.left + a.width), max_comm a.left, min_comm (a.top + a.height),
    max_comm a.top]

lemma coverageLoop_none_iff (wb : Bbox) :
    ∀ mons : List Bbox, coverageLoop wb mons = none ↔ zeroBeforePass wb mons := by
  intro mons
  induction mons with
  | nil => simp [coverageLoop, zeroBeforePass]
  | cons m rest ih =>
    have hstep : coverageLoop wb (m :: rest) =
        if bboxArea m = 0 then none
        else if (1 : ℚ) / 10 ≤ (intersection m wb : ℚ) / (bboxArea m : ℚ) then some true
        else coverageLoop wb rest := rfl
    have hzstep : zeroBeforePass wb (m :: rest) =
        (bboxArea m = 0 ∨
          (¬ (1 : ℚ) / 10 ≤ (intersection m wb : ℚ) / (bboxArea m : ℚ) ∧
            zeroBeforePass wb rest)) := rfl
    rw [hstep, hzstep]
    by_cases h0 : bboxArea m = 0
    · rw [if_pos h0]
      simp [h0]
    · rw [if_neg h0]
      by_cases hr : (1 : ℚ) / 10 ≤ (intersection m wb : ℚ) / (bboxArea m : ℚ)
      · rw [if_pos hr]
        constructor
        · intro hc; exact absurd hc (by simp)
        · rintro (hc | ⟨hc, -⟩)
          · exact absurd hc h0
          · exact absurd hr hc
      · rw [if_neg hr, ih]
        constructor
        · intro hz; exact Or.inr ⟨hr, hz⟩
        · rintro (hc | ⟨-, hz⟩)
          · exact absurd hc h0
          · exact hz

lemma zeroBeforePass_not_of_pos (wb : Bbox) :
    ∀ mons : List Bbox, (∀ m ∈ mons, 0 < bboxArea m) → ¬ zeroBeforePass wb mons := by
  intro mons
  induction mons with
  | nil => intro _ h; exact h
  | cons m rest ih =>
    intro hpos h
    simp only [zeroBeforePass] at h
    rcases h with h | ⟨-, h⟩
    · have := hpos m (List.mem_cons_self _ _)
      omega
    · exact ih (fun x hx => hpos x (List.mem_cons_of_mem _ hx)) h

lemma coverageLoop_true_iff (wb : Bbox) :
    ∀ mons : List Bbox, (∀ m ∈ mons, 0 < bboxArea m) →
      (coverageLoop wb mons = some true ↔
        ∃ m ∈ mons, (1 : ℚ) / 10 * (bboxArea m : ℚ) ≤ (intersection wb m : ℚ)) := by
  intro mons
  induction mons with
  | nil => intro _; simp [coverageLoop]
  | cons m rest ih =>
    intro hpos
    have h0 : ¬ bboxArea m = 0 := by
      have := hpos m (List.mem_cons_self _ _); omega
    have hmq : (0 : ℚ) < (bboxArea m : ℚ) := by
      exact_mod_cast hpos m (List.mem_cons_self _ _)
    have hstep : coverageLoop wb (m :: rest) =
        if bboxArea m = 0 then none
        else if (1 : ℚ) / 10 ≤ (intersection m wb : ℚ) / (bboxArea m : ℚ) then some true
        else coverageLoop wb rest := rfl
    rw [hstep, if_neg h0]
    by_cases hr : (1 : ℚ) / 10 ≤ (intersection m wb : ℚ) / (bboxArea m : ℚ)
    · rw [if_pos hr]
      have hm : (1 : ℚ) / 10 * (bboxArea m : ℚ) ≤ (intersection wb m : ℚ) := by
        rw [intersection_comm]
        exact (le_div_iff₀ hmq).mp hr
      constructor
      · intro _; exact ⟨m, List.mem_cons_self _ _, hm⟩
      · intro _; rfl
    · rw [if_neg hr, ih (fun x hx => hpos x (List.mem_cons_of_mem _ hx))]
      have hm : ¬ (1 : ℚ) / 10 * (bboxArea m : ℚ) ≤ (intersection wb m : ℚ) := by
        rw [intersection_comm]
        intro hc
        exact hr ((le_div_iff₀ hmq).mpr hc)
      constructor
      · rintro ⟨x, hx, hxx⟩; exact ⟨x, List.mem_cons_of_mem _ hx, hxx⟩
      · rintro ⟨x, hx, hxx⟩
        rcases List.mem_cons.mp hx with h | h
        · rw [h] at hxx; exact absurd hxx hm
        · exact ⟨x, h, hxx⟩

lemma foldl_max_init_le : ∀ (l : List Int) (a : Int), a ≤ l.foldl max a := by
  intro l
  induction l with
  | nil => intro a; exact le_refl a
  | cons x xs ih => intro a; exact le_trans (le_max_left a x) (ih (max a x))

lemma foldl_max_mem : ∀ (l : List Int) (a : Int), l.foldl max a = a ∨ l.foldl max a ∈ l := by
  intro l
  induction l with
  | nil => intro a; exact Or.inl rfl
  | cons x xs ih =>
    intro a
    rcases ih (max a x) with h | h
    · rcases max_choice a x with hm | hm
      · left; rw [List.foldl_cons, h, hm]
      · right
        rw [List.foldl_cons, h, hm]
        exact List.mem_cons_self _ _
    · right
      exact List.mem_cons_of_mem _ (by rw [List.foldl_cons]; exact h)

lemma le_foldl_max : ∀ (l : List Int) (a x : Int), x ∈ l → x ≤ l.foldl max a := by
  intro l
  induction l with
  | nil => intro a x hx; cases hx
  | cons y ys ih =>
    intro a x hx
    rcases List.mem_cons.mp hx with h | h
    · rw [List.foldl_cons]
      calc x = y := h
        _ ≤ max a y := le_max_right a y
        _ ≤ (ys.foldl max (max a y)) := foldl_max_init_le ys (max a y)
    · rw [List.foldl_cons]
      exact ih (max a y) x h

lemma refArea_spec (m : Bbox) (ms : List Bbox) :
    ∃ m0 ∈ m :: ms, bboxArea m0 = (ms.map bboxArea).foldl max (bboxArea m) ∧
      ∀ m2 ∈ m :: ms, bboxArea m2 ≤ (ms.map bboxArea).foldl max (bboxArea m) := by
  have hbound : ∀ m2 ∈ m :: ms,
      bboxArea m2 ≤ (ms.map bboxArea).foldl max (bboxArea m) := by
    intro m2 hm2
    rcases List.mem_cons.mp hm2 with h2 | h2
    · rw [h2]; exact foldl_max_init_le _ _
    · exact le_foldl_max _ _ _ (List.mem_map_of_mem _ h2)
  rcases foldl_max_mem (ms.map bboxArea) (bboxArea m) with h | h
  · exact ⟨m, List.mem_cons_self _ _, h.symm, hbound⟩
  · rcases List.mem_map.mp h with ⟨m0, hm0, hval⟩
    exact ⟨m0, List.mem_cons_of_mem _ hm0, hval, hbound⟩

lemma max_disjunct_iff (S : ℚ) (m : Bbox) (ms : List Bbox) :
    (1 : ℚ) / 10 * (((ms.map bboxArea).foldl max (bboxArea m) : Int) : ℚ) ≤ S ↔
      ∃ m0 ∈ m :: ms, (∀ m2 ∈ m :: ms, bboxArea m2 ≤ bboxArea m0) ∧
        (1 : ℚ) / 10 * (bboxArea m0 : ℚ) ≤ S := by
  obtain ⟨mr, hmr, hval, hbound⟩ := refArea_spec m ms
  constructor
  · intro hS
    refine ⟨mr, hmr, ?_, ?_⟩
    · intro m2 hm2; rw [hval]; exact hbound m2 hm2
    · rw [hval]; exact_mod_cast hS
  · rintro ⟨m0, hm0, hmax, hS⟩
    have h1 : bboxArea m0 ≤ (ms.map bboxArea).foldl max (bboxArea m) := hbound m0 hm0
    have h2 : (ms.map bboxArea).foldl max (bboxArea m) ≤ bboxArea m0 := by
      rw [← hval]; exact hmax mr hmr
    have heq : (ms.map bboxArea).foldl max (bboxArea m) = bboxArea m0 :=
      le_antisymm h2 h1
    rw [heq]
    exact_mod_cast hS

/-- C10 counterexample: a zero-area monitor box in the list does not force a
ZeroDivisionError: with a first monitor fully covered by the window, the
coverage loop returns `True` before ever reaching the zero-area box, so a
verdict is returned although the list contains a zero-area box and the
window passes all geometry checks. -/
theorem relevance_filter_zero_area_counterexample :
    active_window_likely_relevant ⟨"t", "app", true, ⟨0, 0, 1000, 1000⟩, []⟩
        [⟨0, 0, 1000, 1000⟩, ⟨0, 0, 0, 0⟩] = some true ∧
    (⟨0, 0, 0, 0⟩ : Bbox) ∈ ([⟨0, 0, 1000, 1000⟩, ⟨0, 0, 0, 0⟩] : List Bbox) ∧
    bboxArea ⟨0, 0, 0, 0⟩ = 0 ∧
    geomPass ⟨"t", "app", true, ⟨0, 0, 1000, 1000⟩, []⟩ := by
  refine ⟨?_, by decide, by decide, ?_⟩
  · norm_num [active_window_likely_relevant, coverageLoop, bboxArea, intersection]
  · norm_num [geomPass]

/-- C10 amended: the relevance filter fails to return (raises) exactly when
the window passes the geometry checks and either a zero-area monitor box is
reached in the coverage loop before any box passes the 10 percent test
(ZeroDivisionError), or the monitor list is empty (max() of an empty
sequence in the fallback). -/
theorem relevance_filter_partiality_spec :
    ∀ (w : WindowInfo) (mons : List Bbox),
      active_window_likely_relevant w mons = none ↔
        geomPass w ∧ (zeroBeforePass w.bbox mons ∨ mons = []) := by
  intro w mons
  unfold active_window_likely_relevant
  by_cases h1 : w.bbox.width ≤ 0 ∨ w.bbox.height ≤ 0
  · rw [if_pos h1]
    constructor
    · intro hc; exact absurd hc (by simp)
    · rintro ⟨⟨hw1, hw2, -⟩, -⟩
      rcases h1 with h1 | h1 <;> omega
  · rw [if_neg h1]
    by_cases h2 : ¬ ((1 : ℚ) / 4 ≤ (w.bbox.width : ℚ) / (w.bbox.height : ℚ) ∧
        (w.bbox.width : ℚ) / (w.bbox.height : ℚ) ≤ 4)
    · rw [if_pos h2]
      constructor
      · intro hc; exact absurd hc (by simp)
      · rintro ⟨⟨-, -, ha1, ha2, -⟩, -⟩
        exact absurd ⟨ha1, ha2⟩ h2
    · rw [if_neg h2]
      by_cases h3 : min w.bbox.width w.bbox.height < 200
      · rw [if_pos h3]
        constructor
        · intro hc; exact absurd hc (by simp)
        · rintro ⟨⟨-, -, -, -, hm⟩, -⟩
          omega
      · rw [if_neg h3]
        have hgeom : geomPass w := by
          push_neg at h1
          refine ⟨by omega, by omega, ?_, ?_, by omega⟩
          · exact (not_not.mp h2).1
          · exact (not_not.mp h2).2
        cases hcov : coverageLoop w.bbox mons with
        | none =>
          constructor
          · intro _
            exact ⟨hgeom, Or.inl ((coverageLoop_none_iff _ _).mp hcov)⟩
          · intro _; rfl
        | some b =>
          cases b with
          | true =>
            constructor
            · intro hc; exact absurd hc (by simp)
            · rintro ⟨-, hz | hz⟩
              · have := (coverageLoop_none_iff _ _).mpr hz
                rw [hcov] at this
                cases this
              · rw [hz] at hcov
                cases hcov
          | false =>
            cases mons with
            | nil =>
              constructor
              · intro _; exact ⟨hgeom, Or.inr rfl⟩
              · intro _; rfl
            | cons m ms =>
              constructor
              · intro hc
                have hc2 : (if (1 : ℚ) / 10 ≤
                    ((((m :: ms).map (fun m2 => intersection w.bbox m2)).sum : Int) : ℚ) /
                      (((ms.map bboxArea).foldl max (bboxArea m) : Int) : ℚ) then
                    (some true : Option Bool) else some false) = none := hc
                by_cases hf : (1 : ℚ) / 10 ≤
                    ((((m :: ms).map (fun m2 => intersection w.bbox m2)).sum : Int) : ℚ) /
                      (((ms.map bboxArea).foldl max (bboxArea m) : Int) : ℚ)
                · rw [if_pos hf] at hc2; cases hc2
                · rw [if_neg hf] at hc2; cases hc2
              · rintro ⟨-, hz | hz⟩
                · have := (coverageLoop_none_iff _ _).mpr hz
                  rw [hcov] at this
                  cases this
                · cases hz

/-- C4: for a non-empty monitor list whose boxes all have positive area, the
relevance filter returns true exactly when the window has positive size,
aspect ratio within `[0.25, 4.0]` inclusive, both sides at least 200 px, and
either some monitor has at least 10 percent of its own area covered or the
total intersection with the monitors reaches 10 percent of the largest
monitor's area; boundary values (ratio or coverage exactly at a threshold)
are accepted. -/
theorem relevance_filter_spec (w : WindowInfo) (mons : List Bbox)
    (hne : mons ≠ []) (hpos : ∀ m ∈ mons, 0 < bboxArea m) :
    active_window_likely_relevant w mons = some true ↔ spec_relevant w mons := by
  unfold active_window_likely_relevant spec_relevant
  by_cases h1 : w.bbox.width ≤ 0 ∨ w.bbox.height ≤ 0
  · rw [if_pos h1]
    constructor
    · intro hc; exact absurd hc (by simp)
    · rintro ⟨⟨hw1, hw2, -⟩, -⟩
      rcases h1 with h1 | h1 <;> omega
  · rw [if_neg h1]
    by_cases h2 : ¬ ((1 : ℚ) / 4 ≤ (w.bbox.width : ℚ) / (w.bbox.height : ℚ) ∧
        (w.bbox.width : ℚ) / (w.bbox.height : ℚ) ≤ 4)
    · rw [if_pos h2]
      constructor
      · intro hc; exact absurd hc (by simp)
      · rintro ⟨⟨-, -, ha1, ha2, -⟩, -⟩
        exact absurd ⟨ha1, ha2⟩ h2
    · rw [if_neg h2]
      by_cases h3 : min w.bbox.width w.bbox.height < 200
      · rw [if_pos h3]
        constructor
        · intro hc; exact absurd hc (by simp)
        · rintro ⟨⟨-, -, -, -, hm⟩, -⟩
          omega
      · rw [if_neg h3]
        have hgeom : geomPass w := by
          push_neg at h1
          refine ⟨by omega, by omega, ?_, ?_, by omega⟩
          · exact (not_not.mp h2).1
          · exact (not_not.mp h2).2
        cases hcov : coverageLoop w.bbox mons with
        | none =>
          exfalso
          exact zeroBeforePass_not_of_pos w.bbox mons hpos
            ((coverageLoop_none_iff _ _).mp hcov)
        | some b =>
          cases b with
          | true =>
            constructor
            · intro _
              exact ⟨hgeom, Or.inl ((coverageLoop_true_iff w.bbox mons hpos).mp hcov)⟩
            · intro _; rfl
          | false =>
            cases mons with
            | nil => exact absurd rfl hne
            | cons m ms =>
              have hrefpos : (0 : ℚ) <
                  (((ms.map bboxArea).foldl max (bboxArea m) : Int) : ℚ) := by
                have hm0 : (0 : Int) < bboxArea m := hpos m (List.mem_cons_self _ _)
                have hle := foldl_max_init_le (ms.map bboxArea) (bboxArea m)
                exact_mod_cast lt_of_lt_of_le hm0 hle
              by_cases hf : (1 : ℚ) / 10 ≤
                  ((((m :: ms).map (fun m2 => intersection w.bbox m2)).sum : Int) : ℚ) /
                    (((ms.map bboxArea).foldl max (bboxArea m) : Int) : ℚ)
              · constructor
                · intro _
                  refine ⟨hgeom, Or.inr ?_⟩
                  exact (max_disjunct_iff _ m ms).mp ((le_div_iff₀ hrefpos).mp hf)
                · intro _
                  show (if (1 : ℚ) / 10 ≤
                      ((((m :: ms).map (fun m2 => intersection w.bbox m2)).sum : Int) : ℚ) /
                        (((ms.map bboxArea).foldl max (bboxArea m) : Int) : ℚ) then
                      (some true : Option Bool) else some false) = some true
                  rw [if_pos hf]
              · constructor
                · intro hc
                  have hc2 : (if (1 : ℚ) / 10 ≤
                      ((((m :: ms).map (fun m2 => intersection w.bbox m2)).sum : Int) : ℚ) /
                        (((ms.map bboxArea).foldl max (bboxArea m) : Int) : ℚ) then
                      (some true : Option Bool) else some false) = some true := hc
                  rw [if_neg hf] at hc2
                  cases hc2
                · rintro ⟨-, hl | hr⟩
                  · have := (coverageLoop_true_iff w.bbox (m :: ms) hpos).mpr hl
                    rw [hcov] at this
                    cases this
                  · exact absurd ((le_div_iff₀ hrefpos).mpr
                      ((max_disjunct_iff _ m ms).mpr hr)) hf

/-- Witness for C4 at the spec's boundary values: a 200 by 200 window whose
intersection with the single 2000 by 200 monitor is exactly 10 percent of
the monitor's area is accepted. -/
theorem relevance_filter_spec_witness :
    active_window_likely_relevant ⟨"t", "app", true, ⟨0, 0, 200, 200⟩, []⟩
        [⟨0, 0, 2000, 200⟩] = some true :=
  (relevance_filter_spec ⟨"t", "app", true, ⟨0, 0, 200, 200⟩, []⟩ [⟨0, 0, 2000, 200⟩]
      (by decide) (by decide)).mpr
    (by
      refine ⟨?_, Or.inl ⟨⟨0, 0, 2000, 200⟩, List.mem_cons_self _ _, ?_⟩⟩
      · norm_num [geomPass]
      · norm_num [bboxArea, intersection])

end Clepsy
